import Mathlib

/-!
A formal model of the `lesser_pandas` single-header DataFrame library
(`lesser_pandas.h`), together with theorems settling the specification's
claims about it.

Modelling conventions:
* C++ `std::string` values are Lean `String`s; `s.length() == 0` tests are
  written `s = ""` (equivalent).
* C++ `double` arithmetic is modelled over `ℚ`; IEEE rounding and the
  non-finite values `inf`/`nan` are outside the model (noted where relevant).
* Functions that can throw are modelled with `Option`/`Except`; a thrown
  exception is `none`/`.error`.
* `std::map<string, Column>` is modelled as an association list with
  insert-or-replace and erase.  Only its iteration ORDER differs from
  `std::map` (key-sorted there); no modelled operation's result depends on
  iteration order, since every map traversal in the source acts on each
  column independently.
-/

/-- The whitespace characters skipped by `strtol`/`strtod` (C `isspace`). -/
def isSpaceChar (c : Char) : Bool :=
  c = ' ' || c = '\t' || c = '\n' || c = '\x0b' || c = '\x0c' || c = '\r'

/-- Decimal digit test. -/
def isDigitChar (c : Char) : Bool :=
  '0' ≤ c && c ≤ '9'

/-- Hexadecimal digit test. -/
def isHexDigitChar (c : Char) : Bool :=
  isDigitChar c || ('a' ≤ c && c ≤ 'f') || ('A' ≤ c && c ≤ 'F')

/-- Characters allowed in the optional `nan(n-char-seq)` suffix of `strtod`. -/
def isAlnumUnderChar (c : Char) : Bool :=
  isDigitChar c || ('a' ≤ c && c ≤ 'z') || ('A' ≤ c && c ≤ 'Z') || c = '_'

/-- ASCII lower-casing, for the case-insensitive `inf`/`nan` forms of `strtod`. -/
def toLowerChar (c : Char) : Char :=
  if 'A' ≤ c && c ≤ 'Z' then Char.ofNat (c.toNat + 32) else c

/-- Numeric value of a decimal digit string (most significant first). -/
def digitsToNat (ds : List Char) : ℕ :=
  ds.foldl (fun a c => 10 * a + (c.toNat - 48)) 0

/-- Numeric value of a hexadecimal digit. -/
def hexDigitVal (c : Char) : ℕ :=
  if isDigitChar c then c.toNat - 48
  else if 'a' ≤ c && c ≤ 'f' then c.toNat - 87
  else c.toNat - 55

/-- Numeric value of a hexadecimal digit string (most significant first). -/
def hexDigitsToNat (ds : List Char) : ℕ :=
  ds.foldl (fun a c => 16 * a + hexDigitVal c) 0

/-- `m · 10^e` for a signed exponent. -/
def applyExp10 (m : ℚ) (e : ℤ) : ℚ :=
  if 0 ≤ e then m * 10 ^ e.toNat else m / 10 ^ e.natAbs

/-- `m · 2^e` for a signed exponent (hexadecimal floats). -/
def applyExp2 (m : ℚ) (e : ℤ) : ℚ :=
  if 0 ≤ e then m * 2 ^ e.toNat else m / 2 ^ e.natAbs

/-- Negate when the parsed sign was `-`. -/
def signApply (neg : Bool) (q : ℚ) : ℚ :=
  if neg then -q else q

/-- The optional leading sign accepted by `strtol`/`strtod`: consumed flag and remainder. -/
def signSplit (cs : List Char) : Bool × List Char :=
  match cs with
  | '-' :: r => (true, r)
  | '+' :: r => (false, r)
  | r => (false, r)

/--
`is_integer` from `lesser_pandas.h`: `stoi(s, &pos)` succeeds and consumes the
whole string.  `stoi` (via `strtol`, base 10) skips leading whitespace, accepts
an optional sign and a nonempty run of decimal digits, and throws
`out_of_range` when the value does not fit in a 32-bit `int`.
-/
def is_integer (s : String) : Bool :=
  let p := signSplit (s.data.dropWhile isSpaceChar)
  let ds := p.2.takeWhile isDigitChar
  let rest := p.2.dropWhile isDigitChar
  if ds.isEmpty then false
  else
    let v : ℤ := if p.1 then -(digitsToNat ds : ℤ) else (digitsToNat ds : ℤ)
    rest.isEmpty && decide (-(2 ^ 31) ≤ v) && decide (v ≤ 2 ^ 31 - 1)

/-- Split a character list at the end of its leading decimal-digit run. -/
def parseDigits (cs : List Char) : List Char × List Char :=
  (cs.takeWhile isDigitChar, cs.dropWhile isDigitChar)

/--
Decimal mantissa of `strtod`: `digits [. digits]` or `. digits`; returns the
value and the unconsumed remainder, `none` if no digit was consumed.
-/
def decMantissa (cs : List Char) : Option (ℚ × List Char) :=
  let ip := cs.takeWhile isDigitChar
  let r1 := cs.dropWhile isDigitChar
  match r1 with
  | '.' :: r2 =>
      let fp := r2.takeWhile isDigitChar
      let r3 := r2.dropWhile isDigitChar
      if ip.isEmpty && fp.isEmpty then none
      else some ((digitsToNat ip : ℚ) + (digitsToNat fp : ℚ) / 10 ^ fp.length, r3)
  | _ => if ip.isEmpty then none else some ((digitsToNat ip : ℚ), r1)

/-- Hexadecimal mantissa of `strtod` (after the `0x`): `hexdigits [. hexdigits]`. -/
def hexMantissa (cs : List Char) : Option (ℚ × List Char) :=
  let ip := cs.takeWhile isHexDigitChar
  let r1 := cs.dropWhile isHexDigitChar
  match r1 with
  | '.' :: r2 =>
      let fp := r2.takeWhile isHexDigitChar
      let r3 := r2.dropWhile isHexDigitChar
      if ip.isEmpty && fp.isEmpty then none
      else some ((hexDigitsToNat ip : ℚ) + (hexDigitsToNat fp : ℚ) / 16 ^ fp.length, r3)
  | _ => if ip.isEmpty then none else some ((hexDigitsToNat ip : ℚ), r1)

/-- An optional sign followed by a nonempty digit run, as a signed exponent. -/
def signedDigits (cs : List Char) : Option (ℤ × List Char) :=
  let p := signSplit cs
  let ds := p.2.takeWhile isDigitChar
  if ds.isEmpty then none
  else some ((if p.1 then -(digitsToNat ds : ℤ) else (digitsToNat ds : ℤ)),
             p.2.dropWhile isDigitChar)

/--
Exponent part of `strtod` introduced by one of the two marker characters
(`e`/`E`, or `p`/`P` for hex).  When the marker is present but no digits
follow, `strtod` backs up: nothing of the exponent is consumed.
-/
def expoPart (m1 m2 : Char) (cs : List Char) : ℤ × List Char :=
  match cs with
  | c :: r =>
      if c = m1 || c = m2 then
        match signedDigits r with
        | some (e, r2) => (e, r2)
        | none => (0, c :: r)
      else (0, c :: r)
  | [] => (0, [])

/-- Case-insensitive literal match; returns the remainder on success. -/
def matchCI (pat : List Char) (cs : List Char) : Option (List Char) :=
  match pat, cs with
  | [], r => some r
  | p :: ps, c :: r => if toLowerChar c = p then matchCI ps r else none
  | _ :: _, [] => none

/-- The optional `(n-char-seq)` after `nan`; malformed suffixes are not consumed. -/
def nanSeq (cs : List Char) : List Char :=
  match cs with
  | '(' :: r =>
      match r.dropWhile isAlnumUnderChar with
      | ')' :: r2 => r2
      | _ => '(' :: r
  | _ => cs

/-- Decimal-float tail of `strtod`: mantissa then optional `e`-exponent. -/
def decFloatTail (neg : Bool) (cs : List Char) : Option (Option ℚ × List Char) :=
  match decMantissa cs with
  | some (m, r1) =>
      let er := expoPart 'e' 'E' r1
      some (some (signApply neg (applyExp10 m er.1)), er.2)
  | none => none

/--
A model of C++ `stod` on a character list: skips whitespace and parses the
longest valid floating-point prefix (decimal, hexadecimal, `inf`/`infinity`,
or `nan`).  Returns the value (as `some q` when finite, `none` for the
non-finite `inf`/`nan` results, which have no rational value) and the
unconsumed remainder; returns `none` overall when no conversion is possible
(`stod` throws `invalid_argument`).  `stod`'s `out_of_range` on values beyond
the `double` range is not modelled.
-/
def stodParse (cs0 : List Char) : Option (Option ℚ × List Char) :=
  let p := signSplit (cs0.dropWhile isSpaceChar)
  match matchCI ['i','n','f','i','n','i','t','y'] p.2 with
  | some r => some (none, r)
  | none =>
  match matchCI ['i','n','f'] p.2 with
  | some r => some (none, r)
  | none =>
  match matchCI ['n','a','n'] p.2 with
  | some r => some (none, nanSeq r)
  | none =>
  match p.2 with
  | '0' :: c :: r =>
      if c = 'x' || c = 'X' then
        match hexMantissa r with
        | some (m, r2) =>
            let er := expoPart 'p' 'P' r2
            some (some (signApply p.1 (applyExp2 m er.1)), er.2)
        | none => decFloatTail p.1 ('0' :: c :: r)
      else decFloatTail p.1 ('0' :: c :: r)
  | other => decFloatTail p.1 other

/--
`is_float` from `lesser_pandas.h`: `stod(s, &pos)` succeeds and consumes the
whole string.
-/
def is_float (s : String) : Bool :=
  match stodParse s.data with
  | some (_, rest) => rest.isEmpty
  | none => false

/--
The finite rational value `stod` computes on a string, `none` when `stod`
throws (no conversion possible) or when the result is non-finite
(`inf`/`nan`, outside the rational model).
-/
def stodVal (s : String) : Option ℚ :=
  match stodParse s.data with
  | some (some q, _) => some q
  | _ => none

/--
`Column` from `lesser_pandas.h`: a name, the row values stored as strings
(the empty string denotes a missing value), and a dtype tag whose default is
`"string"`.
-/
structure Column where
  name : String
  data : List String
  dtype : String := "string"
deriving DecidableEq

/--
The per-column type-inference step of `DataFrame(string)`: missing elements
are skipped, otherwise the running `all_int`/`all_float` flags are and-ed
with `is_integer`/`is_float`.  (The source's early `break` once both flags
are false does not change the final flags, since false flags stay false.)
-/
def inferStep (acc : Bool × Bool) (e : String) : Bool × Bool :=
  if e = "" then acc
  else (acc.1 && is_integer e, acc.2 && is_float e)

/--
The dtype the ingestion loop of `DataFrame(string)` assigns to a column with
the given data: `"int"` if `all_int` survives the scan, else `"float"` if
`all_float` survives, else `"string"`.
-/
def inferDtype (data : List String) : String :=
  let flags := data.foldl inferStep (true, true)
  if flags.1 then "int" else if flags.2 then "float" else "string"

/--
The accumulator loop of `Column::mean()`: walks the data keeping the running
sum and the (decremented-for-missing) element count, both `double`s in the
source; `none` when `stod` throws on a non-missing element.
-/
def meanLoop : List String → ℚ → ℚ → Option (ℚ × ℚ)
  | [], sum, size => some (sum, size)
  | e :: rest, sum, size =>
      if e = "" then meanLoop rest sum (size - 1)
      else
        match stodVal e with
        | some v => meanLoop rest (sum + v) size
        | none => none

/--
`Column::mean()`: only for dtype `"int"`/`"float"` (else it throws
`invalid_argument`, modelled as `none`); sums the non-missing values and
divides by the element count decremented once per missing element.
-/
def Column.mean (col : Column) : Option ℚ :=
  if col.dtype = "int" || col.dtype = "float" then
    match meanLoop col.data 0 (col.data.length : ℚ) with
    | some (s, n) => some (s / n)
    | none => none
  else none

/-- The `stod` value used by the `sorted()` comparator, defaulted for totality. -/
def stodValD (s : String) : ℚ :=
  (stodVal s).getD 0

/-- Insert into a list sorted ascending by `stod` value. -/
def insertByVal (s : String) : List String → List String
  | [] => [s]
  | t :: rest => if stodValD s ≤ stodValD t then s :: t :: rest else t :: insertByVal s rest

/--
An ascending-by-`stod`-value sort.  `std::sort` with the source's comparator
produces some permutation ascending in `stod` value; the relative order of
distinct strings with equal values is unspecified there, and no claim below
depends on it.
-/
def sortByVal (l : List String) : List String :=
  l.foldr insertByVal []

/--
`Column::sorted()`: throws (modelled `.error`) on dtype `"string"`; otherwise
copies the data and runs `std::sort` with comparator
`stod(s1) < stod(s2)`.  With fewer than two elements no comparison is
performed, so the copy is returned untouched; with at least two elements
every element takes part in at least one comparison, so if any element has no
parseable numeric prefix, `stod` throws out of the comparator and the call
fails.
-/
def Column.sorted (col : Column) : Except Unit (List String) :=
  if col.dtype = "string" then .error ()
  else if col.data.length ≤ 1 then .ok col.data
  else if col.data.all (fun s => (stodVal s).isSome) then .ok (sortByVal col.data)
  else .error ()

/--
`Column::min()`: dtype check, then `stod(sorted()[0])`.  On an empty column
`sorted()[0]` indexes past the end of the vector (undefined behaviour),
modelled as a failure.
-/
def Column.min (col : Column) : Except Unit ℚ :=
  if col.dtype = "string" then .error ()
  else
    match col.sorted with
    | .error _ => .error ()
    | .ok l =>
        match l.head? with
        | none => .error ()
        | some s =>
            match stodVal s with
            | some v => .ok v
            | none => .error ()

/--
`Column::max()`: dtype check, then `stod(sorted()[size-1])`; the empty-column
out-of-bounds access is modelled as a failure.
-/
def Column.max (col : Column) : Except Unit ℚ :=
  if col.dtype = "string" then .error ()
  else
    match col.sorted with
    | .error _ => .error ()
    | .ok l =>
        match l.getLast? with
        | none => .error ()
        | some s =>
            match stodVal s with
            | some v => .ok v
            | none => .error ()

/-- The decimal digit character for `n < 10` (`'0' + n`). -/
def digitChar10 (n : ℕ) : Char :=
  match n with
  | 0 => '0' | 1 => '1' | 2 => '2' | 3 => '3' | 4 => '4'
  | 5 => '5' | 6 => '6' | 7 => '7' | 8 => '8' | _ => '9'

/-- Fuel-bounded decimal rendering of a natural number (most significant first). -/
def natDigitsAux : ℕ → ℕ → List Char
  | 0, _ => []
  | fuel + 1, n =>
      if n < 10 then [digitChar10 n]
      else natDigitsAux fuel (n / 10) ++ [digitChar10 (n % 10)]

/-- Decimal digit characters of a natural number. -/
def natToDecimal (n : ℕ) : List Char :=
  natDigitsAux (n + 1) n

/-- C++ `std::to_string(int)`. -/
def intToString (n : ℤ) : String :=
  ⟨(if n < 0 then ['-'] else []) ++ natToDecimal n.natAbs⟩

/--
C++ `std::to_string(double)`: `printf "%f"`, i.e. the value rendered with
exactly six digits after the decimal point.  The model rounds the rational
half-up at the sixth decimal; `printf` rounds the binary double to nearest,
and the two agree on every value used below (values exactly representable at
six decimals).
-/
def doubleToString (q : ℚ) : String :=
  let a := if q < 0 then -q else q
  let r := a * 1000000 + 1 / 2
  let scaled := r.num.toNat / r.den
  let fracDigits := natToDecimal (scaled % 1000000)
  ⟨(if q < 0 then ['-'] else []) ++ natToDecimal (scaled / 1000000)
      ++ '.' :: (List.replicate (6 - fracDigits.length) '0' ++ fracDigits)⟩

/--
The scalar fill values the `fillna` templates are instantiated at in the
source: `int`, `double` (modelled as `ℚ`) and `string`.
-/
inductive FillValue where
  | fint : ℤ → FillValue
  | fdouble : ℚ → FillValue
  | fstring : String → FillValue
deriving DecidableEq

/-- `static_cast<int>` truncation toward zero of a `double`. -/
def truncToInt (q : ℚ) : ℚ :=
  ((q.num / q.den : ℤ) : ℚ)

/--
`Column::fillna(x)`: every missing element is replaced.  For numeric `x` the
source first does `x = static_cast<int>(x)` when `dtype == "int"` (for a
`double` argument this truncates but keeps the `double` type) and then stores
`to_string(x)`; a `string` argument is stored as is.
-/
def Column.fillna (col : Column) (x : FillValue) : Column :=
  { col with
    data := col.data.map fun e =>
      if e = "" then
        match x with
        | .fint n => intToString n
        | .fdouble q => doubleToString (if col.dtype = "int" then truncToInt q else q)
        | .fstring s => s
      else e }

/-- `to_string`/identity rendering of a fill value, as `DataFrame::fillna` stores it. -/
def fillValueString (x : FillValue) : String :=
  match x with
  | .fint n => intToString n
  | .fdouble q => doubleToString q
  | .fstring s => s

/--
The mask-producing loop shared by the six numeric comparison operators of
`Column`: throws (modelled `.error`) on dtype `"string"`; a missing element
yields `false`; otherwise the `stod` value is compared with the key, any
`stod` exception being caught and collapsed to `false`.
-/
def numMask (col : Column) (key : ℚ) (op : ℚ → ℚ → Bool) : Except Unit (List Bool) :=
  if col.dtype = "string" then .error ()
  else
    .ok (col.data.map fun s =>
      if s = "" then false
      else
        match stodVal s with
        | some v => op v key
        | none => false)

/-- `Column::operator==(const double&)`. -/
def Column.eqNum (col : Column) (key : ℚ) : Except Unit (List Bool) :=
  numMask col key fun a b => decide (a = b)

/-- `Column::operator!=(const double&)`. -/
def Column.neNum (col : Column) (key : ℚ) : Except Unit (List Bool) :=
  numMask col key fun a b => decide (a ≠ b)

/-- `Column::operator<(const double&)`. -/
def Column.ltNum (col : Column) (key : ℚ) : Except Unit (List Bool) :=
  numMask col key fun a b => decide (a < b)

/-- `Column::operator>(const double&)`. -/
def Column.gtNum (col : Column) (key : ℚ) : Except Unit (List Bool) :=
  numMask col key fun a b => decide (a > b)

/-- `Column::operator<=(const double&)`. -/
def Column.leNum (col : Column) (key : ℚ) : Except Unit (List Bool) :=
  numMask col key fun a b => decide (a ≤ b)

/-- `Column::operator>=(const double&)`. -/
def Column.geNum (col : Column) (key : ℚ) : Except Unit (List Bool) :=
  numMask col key fun a b => decide (a ≥ b)

/--
The mask-producing loop shared by the six string comparison operators of
`Column`: throws on dtype `"int"`/`"float"`; every element (a missing one
included) is compared with the key directly.
-/
def strMask (col : Column) (key : String) (op : String → String → Bool) :
    Except Unit (List Bool) :=
  if col.dtype = "float" || col.dtype = "int" then .error ()
  else .ok (col.data.map fun s => op s key)

/-- `Column::operator==(const string&)`. -/
def Column.eqStr (col : Column) (key : String) : Except Unit (List Bool) :=
  strMask col key fun a b => decide (a = b)

/-- `Column::operator!=(const string&)`. -/
def Column.neStr (col : Column) (key : String) : Except Unit (List Bool) :=
  strMask col key fun a b => decide (a ≠ b)

/-- `Column::operator<(const string&)` (lexicographic). -/
def Column.ltStr (col : Column) (key : String) : Except Unit (List Bool) :=
  strMask col key fun a b => decide (a < b)

/-- `Column::operator>(const string&)` (lexicographic). -/
def Column.gtStr (col : Column) (key : String) : Except Unit (List Bool) :=
  strMask col key fun a b => decide (a > b)

/-- Lookup in the `col_data` association list (`std::map::find`). -/
def alookup : List (String × Column) → String → Option Column
  | [], _ => none
  | (k', v') :: rest, k => if k' = k then some v' else alookup rest k

/-- Insert-or-replace in the `col_data` association list (`std::map::operator[]` + assignment). -/
def ainsert : List (String × Column) → String → Column → List (String × Column)
  | [], k, v => [(k, v)]
  | (k', v') :: rest, k, v =>
      if k' = k then (k, v) :: rest else (k', v') :: ainsert rest k v

/-- Erase a key from the `col_data` association list (`std::map::erase`). -/
def aerase : List (String × Column) → String → List (String × Column)
  | [], _ => []
  | (k', v') :: rest, k => if k' = k then rest else (k', v') :: aerase rest k

/--
`DataFrame` from `lesser_pandas.h`: the column map, the row-oriented display
buffer `row_data` (whose first entry is the header row), the source path, and
the column-order list.
-/
structure DataFrame where
  col_data : List (String × Column)
  row_data : List (List String)
  file_dir : String
  columns : List String
deriving DecidableEq

/--
`DataFrame::rename`: the pairs are processed in order; for each pair whose
old name is found, the column is copied to the new key with its `name` field
updated (the source's self-assignment of `dtype` is a no-op), the old key is
erased and every occurrence of the old name in `columns` is rewritten.  The
first pair whose old name is not found throws `std::out_of_range`
(`.error`), carrying the DataFrame state at the moment of the throw — the
earlier pairs' renamings are already applied.
-/
def DataFrame.rename (df : DataFrame) : List (String × String) → Except DataFrame DataFrame
  | [] => .ok df
  | (oldName, newName) :: rest =>
      match alookup df.col_data oldName with
      | some c =>
          let cd := aerase (ainsert df.col_data newName { c with name := newName }) oldName
          DataFrame.rename
            { df with
              col_data := cd,
              columns := df.columns.map fun s => if s = oldName then newName else s }
            rest
      | none => .error df

/--
`DataFrame::fillna(x)`: every missing element of every column is replaced by
the stringification of `x` — `to_string` for `int`/`double` arguments, the
string itself otherwise.  Unlike `Column::fillna`, no cast to the column's
dtype is performed.
-/
def DataFrame.fillna (df : DataFrame) (x : FillValue) : DataFrame :=
  { df with
    col_data := df.col_data.map fun p =>
      (p.1, { p.2 with data := p.2.data.map fun e => if e = "" then fillValueString x else e }) }

/-- The indices the `dropna` scan collects: positions of missing values. -/
def missingIdxs (data : List String) : List ℕ :=
  (List.range data.length).filter fun i => data.getD i "" = ""

/--
The inner erase sequence of `DataFrame::dropna` on one vector: for the `j`-th
collected index `idx` (0-based), `erase(begin() + idx - jdx)`.  `List.eraseIdx`
is a no-op out of range; in the source that case would be undefined behaviour
and it never arises under the equal-row-count invariant.
-/
def eraseRun : List String → List ℕ → ℕ → List String
  | xs, [], _ => xs
  | xs, i :: rest, j => eraseRun (xs.eraseIdx (i - j)) rest (j + 1)

/-- One pass of the `dropna` erase loop over all columns, at shift `j`. -/
def eraseStep (j i : ℕ) (cd : List (String × Column)) : List (String × Column) :=
  cd.map fun p => (p.1, { p.2 with data := p.2.data.eraseIdx (i - j) })

/-- The outer erase loop of `DataFrame::dropna`: one `eraseStep` per collected index. -/
def eraseLoop : List (String × Column) → List ℕ → ℕ → List (String × Column)
  | cd, [], _ => cd
  | cd, i :: rest, j => eraseLoop (eraseStep j i cd) rest (j + 1)

/--
`DataFrame::dropna(col)`: `col_data[col]` first (inserting a default-valued
`Column` under `col` when absent, as `std::map::operator[]` does), then the
missing indices of that column are collected and every column erases those
rows, the erase position compensating for the rows already removed.
-/
def DataFrame.dropna (df : DataFrame) (col : String) : DataFrame :=
  let cd0 :=
    match alookup df.col_data col with
    | some _ => df.col_data
    | none => ainsert df.col_data col { name := "", data := [], dtype := "string" }
  let keyData := ((alookup cd0 col).getD { name := "", data := [], dtype := "string" }).data
  { df with col_data := eraseLoop cd0 (missingIdxs keyData) 0 }

/-- Keep the elements of `d` at the positions where `mask` is true (in order). -/
def keepMask : List α → List Bool → List α
  | _, [] => []
  | [], _ :: _ => []
  | d :: ds, b :: bs => if b then d :: keepMask ds bs else keepMask ds bs

/--
The column-rebuilding loop of `DataFrame::operator[](const vector<bool>&)`:
for each name in `columns`, the column is looked up in the SOURCE DataFrame's
map (`col_data.at`, `none` modelling its `std::out_of_range`) and a filtered
copy (same name and dtype, `data` restricted to the mask's true positions) is
stored into the new DataFrame's map.
-/
def buildCols (orig : List (String × Column)) :
    List String → List (String × Column) → List Bool → Option (List (String × Column))
  | [], cd, _ => some cd
  | n :: ns, cd, mask =>
      match alookup orig n with
      | none => none
      | some c =>
          buildCols orig ns
            (ainsert cd n { name := n, data := keepMask c.data mask, dtype := c.dtype }) mask

/--
`DataFrame::operator[](const vector<bool>& mask)`: the mask length is checked
against `row_data.size() - 1` (the display buffer minus its header row) and a
mismatch throws `std::out_of_range`.  On an empty `row_data` the `size_t`
subtraction wraps to `2^64 - 1`, a length no actual `vector<bool>` attains,
so the call always throws; the model returns `.error` there.  Otherwise the
new DataFrame starts as a full copy of the source — so its `row_data` retains
every original row — then the header row and the mask-selected rows are
appended to `row_data`, and every column listed in `columns` is rebuilt from
the source's columns restricted to the mask.
-/
def maskFilter (df : DataFrame) (mask : List Bool) : Except Unit DataFrame :=
  match df.row_data with
  | [] => .error ()
  | hdr :: rows =>
      if mask.length = rows.length then
        match buildCols df.col_data df.columns df.col_data mask with
        | some cd =>
            .ok { col_data := cd,
                  row_data := (hdr :: rows) ++ hdr :: keepMask rows mask,
                  file_dir := df.file_dir,
                  columns := df.columns }
        | none => .error ()
      else .error ()

/-- The indices (in order) at which a mask is true — the "old positions" of the retained rows. -/
def trueIdxs : List Bool → List ℕ
  | [] => []
  | b :: bs => (if b then [0] else []) ++ (trueIdxs bs).map (· + 1)

/-- The sum of the `stod` values of the non-missing entries (the spec's numerator for `mean`). -/
def sumNonMissing (data : List String) : ℚ :=
  ((data.filter fun e => e ≠ "").filterMap stodVal).sum

/-- Keep the entries of `xs` at the positions where the key column `ks` is non-missing. -/
def keepByKey (xs ks : List String) : List String :=
  ((xs.zip ks).filter fun p => p.2 ≠ "").map Prod.fst

/-- A one-column, two-row DataFrame exactly as CSV ingestion builds it. -/
def exDF : DataFrame :=
  { col_data := [("x", { name := "x", data := ["1", "2"], dtype := "int" })],
    row_data := [["x"], ["1"], ["2"]],
    file_dir := "t.csv",
    columns := ["x"] }

/-- The DataFrame `maskFilter exDF [true, false]` produces (display buffer duplicated). -/
def exDFfiltered : DataFrame :=
  { col_data := [("x", { name := "x", data := ["1"], dtype := "int" })],
    row_data := [["x"], ["1"], ["2"], ["x"], ["1"]],
    file_dir := "t.csv",
    columns := ["x"] }

/-- A two-column DataFrame for exercising `rename`. -/
def exDFab : DataFrame :=
  { col_data := [("a", { name := "a", data := ["1"], dtype := "int" }),
                 ("b", { name := "b", data := ["2"], dtype := "int" })],
    row_data := [["a", "b"], ["1", "2"]],
    file_dir := "t.csv",
    columns := ["a", "b"] }

/-- The state `rename exDFab [("a","c"),("z","w")]` leaves behind when it throws. -/
def exDFabMut : DataFrame :=
  { col_data := [("b", { name := "b", data := ["2"], dtype := "int" }),
                 ("c", { name := "c", data := ["1"], dtype := "int" })],
    row_data := [["a", "b"], ["1", "2"]],
    file_dir := "t.csv",
    columns := ["c", "b"] }

/-- A two-column DataFrame with missing values in column `a`, for `dropna`. -/
def exDFdrop : DataFrame :=
  { col_data := [("a", { name := "a", data := ["1", "", "3", ""], dtype := "int" }),
                 ("b", { name := "b", data := ["w", "x", "y", "z"], dtype := "string" })],
    row_data := [["a", "b"], ["1", "w"], ["", "x"], ["3", "y"], ["", "z"]],
    file_dir := "t.csv",
    columns := ["a", "b"] }

/-- A DataFrame whose Integer column has a missing value, for `fillna`. -/
def exDFfill : DataFrame :=
  { col_data := [("n", { name := "n", data := ["", "1"], dtype := "int" })],
    row_data := [["n"], [""], ["1"]],
    file_dir := "t.csv",
    columns := ["n"] }

/-- An Integer column with a missing value. -/
def colMissingInt : Column :=
  { name := "x", data := ["", "1"], dtype := "int" }

/-- An Integer column whose only value is missing. -/
def colAllMissing : Column :=
  { name := "x", data := [""], dtype := "int" }

/-- A Text column whose only value is missing. -/
def colStrMissing : Column :=
  { name := "s", data := [""], dtype := "string" }

/-- A Float column with one missing value, the spec's `mean` example. -/
def colMeanEx : Column :=
  { name := "x", data := ["1", "2.5", ""], dtype := "float" }

/-- The type-inference fold computes the two flags pointwise over the data. -/
theorem foldl_inferStep (data : List String) (a b : Bool) :
    data.foldl inferStep (a, b) =
      (a && data.all fun e => (e == "") || is_integer e,
       b && data.all fun e => (e == "") || is_float e) := by
  induction data generalizing a b with
  | nil => simp
  | cons e rest ih =>
      simp only [List.foldl_cons, List.all_cons, inferStep]
      by_cases he : e = ""
      · have hb : (e == "") = true := beq_iff_eq.mpr he
        simp [he, hb, ih]
      · have hb : (e == "") = false := beq_eq_false_iff_ne.mpr he
        simp [he, hb, ih, Bool.and_assoc]

/-- Scanning all elements with a missing-skipping predicate is a bounded ∀. -/
theorem all_nonmissing_iff (p : String → Bool) (data : List String) :
    (data.all fun e => (e == "") || p e) = true ↔ ∀ e ∈ data, e ≠ "" → p e = true := by
  simp only [List.all_eq_true, Bool.or_eq_true, beq_iff_eq]
  constructor
  · intro h e he hne
    rcases h e he with h1 | h1
    · exact absurd h1 hne
    · exact h1
  · intro h e he
    by_cases hee : e = ""
    · exact Or.inl hee
    · exact Or.inr (h e he hee)

/-- `inferDtype` yields `"int"` exactly when every non-missing value passes `is_integer`. -/
theorem inferDtype_int_iff (data : List String) :
    inferDtype data = "int" ↔ ∀ e ∈ data, e ≠ "" → is_integer e = true := by
  have hI := all_nonmissing_iff is_integer data
  unfold inferDtype
  rw [foldl_inferStep]
  simp only [Bool.true_and]
  split_ifs with h1 h2
  · exact iff_of_true rfl (hI.mp h1)
  · exact iff_of_false (by decide) fun hp => h1 (hI.mpr hp)
  · exact iff_of_false (by decide) fun hp => h1 (hI.mpr hp)

/-- `inferDtype` yields `"float"` exactly when not all-integer but all-float. -/
theorem inferDtype_float_iff (data : List String) :
    inferDtype data = "float" ↔
      ¬(∀ e ∈ data, e ≠ "" → is_integer e = true) ∧
        ∀ e ∈ data, e ≠ "" → is_float e = true := by
  have hI := all_nonmissing_iff is_integer data
  have hF := all_nonmissing_iff is_float data
  unfold inferDtype
  rw [foldl_inferStep]
  simp only [Bool.true_and]
  split_ifs with h1 h2
  · exact iff_of_false (by decide) fun h => h.1 (hI.mp h1)
  · exact iff_of_true rfl ⟨fun hp => h1 (hI.mpr hp), hF.mp h2⟩
  · exact iff_of_false (by decide) fun h => h2 (hF.mpr h.2)

/-- `inferDtype` yields `"string"` exactly when neither all-integer nor all-float. -/
theorem inferDtype_string_iff (data : List String) :
    inferDtype data = "string" ↔
      ¬(∀ e ∈ data, e ≠ "" → is_integer e = true) ∧
        ¬(∀ e ∈ data, e ≠ "" → is_float e = true) := by
  have hI := all_nonmissing_iff is_integer data
  have hF := all_nonmissing_iff is_float data
  unfold inferDtype
  rw [foldl_inferStep]
  simp only [Bool.true_and]
  split_ifs with h1 h2
  · exact iff_of_false (by decide) fun h => h.1 (hI.mp h1)
  · exact iff_of_false (by decide) fun h => h.2 (hF.mp h2)
  · exact iff_of_true rfl ⟨fun hp => h1 (hI.mpr hp), fun hq => h2 (hF.mpr hq)⟩

/--
C2: for every ingested column, the inferred dtype is Integer iff every
non-missing value passes the strict (whole-string, range-checked) integer
grammar of `is_integer`; otherwise Float iff every non-missing value passes
the strict decimal grammar of `is_float`; otherwise Text — and Integer is
checked before Float, so `"1"` classifies as Integer.
-/
theorem c2_dtype_inference (data : List String) :
    (inferDtype data = "int" ↔ ∀ e ∈ data, e ≠ "" → is_integer e = true) ∧
    (inferDtype data = "float" ↔
      ¬(∀ e ∈ data, e ≠ "" → is_integer e = true) ∧
        ∀ e ∈ data, e ≠ "" → is_float e = true) ∧
    (inferDtype data = "string" ↔
      ¬(∀ e ∈ data, e ≠ "" → is_integer e = true) ∧
        ¬(∀ e ∈ data, e ≠ "" → is_float e = true)) ∧
    inferDtype ["1"] = "int" :=
  ⟨inferDtype_int_iff data, inferDtype_float_iff data, inferDtype_string_iff data, by decide⟩

/-- C2 witness: the characterization applied at the concrete column `["1", "2.5"]`. -/
theorem c2_dtype_inference_witness : inferDtype ["1", "2.5"] = "float" :=
  (c2_dtype_inference ["1", "2.5"]).2.1.mpr (by decide)

/--
C7 counterexample: a column whose every value is missing is assigned dtype
`"int"` by the inference loop (the `all_int` flag is never cleared), not
`"string"` as the claim states.
-/
theorem c7_counterexample : inferDtype ["", ""] = "int" ∧ inferDtype ["", ""] ≠ "string" := by
  decide

/--
C7 (amended): a column in which every value is missing is assigned dtype
Integer (`"int"`) by type inference at ingestion, not Text.
-/
theorem c7_all_missing_is_int (data : List String) (h : ∀ e ∈ data, e = "") :
    inferDtype data = "int" :=
  (inferDtype_int_iff data).mpr fun e he hne => absurd (h e he) hne

/-- C7 witness: the amended claim applied at the all-missing column `["", ""]`. -/
theorem c7_all_missing_is_int_witness :
    (∀ e ∈ (["", ""] : List String), e = "") ∧ inferDtype ["", ""] = "int" :=
  ⟨by decide, c7_all_missing_is_int ["", ""] (by decide)⟩

/-- The numeric comparison loop succeeds on any non-Text column, with an explicit mask. -/
theorem numMask_ok (col : Column) (key : ℚ) (op : ℚ → ℚ → Bool) (hd : col.dtype ≠ "string") :
    numMask col key op =
      .ok (col.data.map fun s =>
        if s = "" then false
        else
          match stodVal s with
          | some v => op v key
          | none => false) := by
  unfold numMask
  rw [if_neg hd]

/-- A missing element makes any numeric comparison's mask entry false. -/
theorem numMask_missing (col : Column) (key : ℚ) (op : ℚ → ℚ → Bool) (i : ℕ)
    (hd : col.dtype ≠ "string") (hi : col.data[i]? = some "") :
    ∃ m, numMask col key op = .ok m ∧ m[i]? = some false := by
  refine ⟨_, numMask_ok col key op hd, ?_⟩
  rw [List.getElem?_map, hi]
  rfl

/--
C4 counterexample: on a Text column, a missing value does NOT yield `false`
for the inequality operator — comparing the missing row of `colStrMissing`
with the key `"x"` yields `true`, because the string operators compare the
empty string literally.
-/
theorem c4_counterexample :
    colStrMissing.data[0]? = some "" ∧ Column.neStr colStrMissing "x" = .ok [true] :=
  ⟨rfl, rfl⟩

/--
C4 (amended): for the six numeric comparison operators (against a scalar
key) on a non-Text column, a row whose value is missing (the empty string)
yields `false` in the resulting mask, for every key, including the
inequality operator.  (The string/lexicographic operators do NOT follow this
rule: they compare the empty string literally.)
-/
theorem c4_missing_numeric_false (col : Column) (key : ℚ) (i : ℕ)
    (hd : col.dtype ≠ "string") (hi : col.data[i]? = some "") :
    (∃ m, col.eqNum key = .ok m ∧ m[i]? = some false) ∧
    (∃ m, col.neNum key = .ok m ∧ m[i]? = some false) ∧
    (∃ m, col.ltNum key = .ok m ∧ m[i]? = some false) ∧
    (∃ m, col.gtNum key = .ok m ∧ m[i]? = some false) ∧
    (∃ m, col.leNum key = .ok m ∧ m[i]? = some false) ∧
    (∃ m, col.geNum key = .ok m ∧ m[i]? = some false) :=
  ⟨numMask_missing col key _ i hd hi, numMask_missing col key _ i hd hi,
   numMask_missing col key _ i hd hi, numMask_missing col key _ i hd hi,
   numMask_missing col key _ i hd hi, numMask_missing col key _ i hd hi⟩

/-- C4 witness: the amended claim applied at an Integer column with a missing first row. -/
theorem c4_missing_numeric_false_witness :
    colMissingInt.dtype ≠ "string" ∧ colMissingInt.data[0]? = some "" ∧
    (∃ m, colMissingInt.eqNum 1 = .ok m ∧ m[0]? = some false) :=
  ⟨by decide, rfl, (c4_missing_numeric_false colMissingInt 1 0 (by decide) rfl).1⟩

/--
C10 counterexample: `sorted()` on a one-row Integer column whose single
value is missing performs no comparison and succeeds, returning the data
unchanged — it does not fail as the claim states.
-/
theorem c10_counterexample :
    "" ∈ colAllMissing.data ∧ Column.sorted colAllMissing = .ok [""] :=
  ⟨by decide, rfl⟩

/--
C10 (amended): for a column of dtype Integer or Float containing a missing
value, `min()` and `max()` always fail (the conversion of the missing entry,
or the sort comparator, throws); `sorted()` fails whenever the column has at
least two entries, but on a column of at most one entry it performs no
comparison and returns the data unchanged.
-/
theorem c10_missing_fails (col : Column)
    (hd : col.dtype = "int" ∨ col.dtype = "float") (hm : "" ∈ col.data) :
    col.min = .error () ∧ col.max = .error () ∧
    (2 ≤ col.data.length → col.sorted = .error ()) ∧
    (col.data.length ≤ 1 → col.sorted = .ok col.data) := by
  have hds : col.dtype ≠ "string" := by
    rcases hd with h | h <;> rw [h] <;> decide
  have hall : (col.data.all fun s => (stodVal s).isSome) = false := by
    cases hv : col.data.all fun s => (stodVal s).isSome
    · rfl
    · have h2 := List.all_eq_true.mp hv "" hm
      rw [show stodVal "" = none from rfl] at h2
      exact Bool.noConfusion h2
  have hsort2 : 2 ≤ col.data.length → col.sorted = .error () := by
    intro h2
    unfold Column.sorted
    rw [if_neg hds, if_neg (show ¬col.data.length ≤ 1 by omega)]
    simp [hall]
  have hsort1 : col.data.length ≤ 1 → col.sorted = .ok col.data := by
    intro h1
    unfold Column.sorted
    rw [if_neg hds, if_pos h1]
  have hminmax : col.min = .error () ∧ col.max = .error () := by
    by_cases h2 : 2 ≤ col.data.length
    · have hs := hsort2 h2
      constructor
      · unfold Column.min
        rw [if_neg hds, hs]
      · unfold Column.max
        rw [if_neg hds, hs]
    · have h1 : col.data.length ≤ 1 := by omega
      have hlen1 : col.data.length = 1 := by
        have := List.length_pos.mpr (List.ne_nil_of_mem hm)
        omega
      obtain ⟨a, ha⟩ := List.length_eq_one.mp hlen1
      have ha' : a = "" := by
        rw [ha] at hm
        exact (List.mem_singleton.mp hm).symm
      subst ha'
      have hs := hsort1 h1
      constructor
      · unfold Column.min
        rw [if_neg hds, hs, ha]
        rfl
      · unfold Column.max
        rw [if_neg hds, hs, ha]
        rfl
  exact ⟨hminmax.1, hminmax.2, hsort2, hsort1⟩

/-- C10 witness: the amended claim applied at a two-row Integer column with a missing entry. -/
theorem c10_missing_fails_witness :
    (colMissingInt.dtype = "int" ∨ colMissingInt.dtype = "float") ∧
    "" ∈ colMissingInt.data ∧
    (colMissingInt.min = .error () ∧ colMissingInt.max = .error () ∧
      (2 ≤ colMissingInt.data.length → colMissingInt.sorted = .error ()) ∧
      (colMissingInt.data.length ≤ 1 → colMissingInt.sorted = .ok colMissingInt.data)) :=
  ⟨Or.inl rfl, by decide, c10_missing_fails colMissingInt (Or.inl rfl) (by decide)⟩

/--
C8 counterexample: `rename` with pairs `[("a","c"),("z","w")]` on a table
with columns `a`, `b` throws not-found on the second pair, but the state it
leaves behind already has `a` renamed to `c` — the table is NOT left in its
prior, pre-call state.
-/
theorem c8_counterexample :
    DataFrame.rename exDFab [("a", "c"), ("z", "w")] = .error exDFabMut ∧
    exDFabMut ≠ exDFab := by
  constructor
  · rfl
  · decide

/--
C8 (amended): `rename` processes its pairs sequentially; when the FIRST
pair's old name is not a column, it fails with a not-found error and the
table is unchanged.  When a later pair's old name is unknown, the error is
raised with the earlier pairs' renamings already applied, so the prior state
is not restored.
-/
theorem c8_rename_unknown_first (df : DataFrame) (oldName newName : String)
    (rest : List (String × String)) (h : alookup df.col_data oldName = none) :
    DataFrame.rename df ((oldName, newName) :: rest) = .error df := by
  unfold DataFrame.rename
  rw [h]

/-- C8 witness: the amended claim applied with the unknown name `"z"` first. -/
theorem c8_rename_unknown_first_witness :
    alookup exDFab.col_data "z" = none ∧
    DataFrame.rename exDFab [("z", "w")] = .error exDFab :=
  ⟨rfl, c8_rename_unknown_first exDFab "z" "w" [] rfl⟩

/--
C3 (code bug): filtering `exDF` with `[true, false]` yields a table whose
every column has one row, yet re-filtering it with the all-true mask `[true]`
of exactly that length fails with the range error instead of succeeding —
the filtered table's `row_data` display buffer retained all original rows
plus a duplicated header, so the mask-length check compares against a stale
row count.
-/
theorem c3_refilter_all_true_fails :
    maskFilter exDF [true, false] = .ok exDFfiltered ∧
    (∀ p ∈ exDFfiltered.col_data, p.2.data.length = 1) ∧
    maskFilter exDFfiltered [true] = .error () := by
  refine ⟨rfl, by decide, rfl⟩

/-- The non-missing and missing entries of a list partition its length. -/
theorem length_filter_compl (l : List String) :
    (l.filter fun e => e ≠ "").length + (l.filter fun e => e = "").length = l.length := by
  induction l with
  | nil => rfl
  | cons e rest ih =>
      by_cases he : e = "" <;> simp [he, ← ih] <;> omega

/--
The `mean` accumulator loop adds exactly the parsed non-missing values to
the sum and subtracts one from the size per missing element.
-/
theorem meanLoop_spec (l : List String) : ∀ s z : ℚ,
    (∀ e ∈ l, e ≠ "" → (stodVal e).isSome) →
    meanLoop l s z =
      some (s + sumNonMissing l, z - ((l.filter fun e => e = "").length : ℚ)) := by
  induction l with
  | nil =>
      intro s z _
      simp [meanLoop, sumNonMissing]
  | cons e rest ih =>
      intro s z h
      by_cases he : e = ""
      · rw [show meanLoop (e :: rest) s z = meanLoop rest s (z - 1) by
            simp [meanLoop, he]]
        rw [ih _ _ fun x hx => h x (by simp [hx])]
        have hs : sumNonMissing (e :: rest) = sumNonMissing rest := by
          simp [sumNonMissing, he]
        have hc : ((e :: rest).filter fun x => x = "") = e :: (rest.filter fun x => x = "") := by
          simp [he]
        have harith : z - 1 - ((rest.filter fun x => x = "").length : ℚ) =
            z - ((e :: (rest.filter fun x => x = "")).length : ℚ) := by
          simp only [List.length_cons]
          push_cast
          ring
        rw [hs, hc, ← harith]
      · obtain ⟨v, hv⟩ := Option.isSome_iff_exists.mp (h e (by simp) he)
        rw [show meanLoop (e :: rest) s z = meanLoop rest (s + v) z by
            simp [meanLoop, he, hv]]
        rw [ih _ _ fun x hx => h x (by simp [hx])]
        have hs : sumNonMissing (e :: rest) = v + sumNonMissing rest := by
          simp [sumNonMissing, he, hv]
        have hc : ((e :: rest).filter fun x => x = "") = rest.filter fun x => x = "" := by
          simp [he]
        have harith : s + (v + sumNonMissing rest) = s + v + sumNonMissing rest := by
          ring
        rw [hs, hc, harith]

/--
C5: for a column of dtype Integer or Float whose non-missing values all
parse (and with at least one non-missing value, the case the source's
division is defined on), `mean()` returns the sum of the non-missing values
divided by the count of non-missing values — missing values are excluded
from both the numerator and the denominator.
-/
theorem c5_mean_excludes_missing (col : Column)
    (hd : col.dtype = "int" ∨ col.dtype = "float")
    (hp : ∀ e ∈ col.data, e ≠ "" → (stodVal e).isSome)
    (_hne : (col.data.filter fun e => e ≠ "").length ≠ 0) :
    col.mean =
      some (sumNonMissing col.data / ((col.data.filter fun e => e ≠ "").length : ℚ)) := by
  have hcond : (decide (col.dtype = "int") || decide (col.dtype = "float")) = true := by
    rcases hd with h | h <;> simp [h]
  unfold Column.mean
  rw [if_pos hcond, meanLoop_spec col.data 0 _ hp]
  have hq : (col.data.length : ℚ) - ((col.data.filter fun e => e = "").length : ℚ) =
      ((col.data.filter fun e => e ≠ "").length : ℚ) := by
    rw [← length_filter_compl col.data]
    push_cast
    ring
  rw [zero_add, hq]

/-- C5 witness: the spec's own example column `["1", "2.5", ""]` has mean `7/4`. -/
theorem c5_mean_excludes_missing_witness :
    (colMeanEx.dtype = "int" ∨ colMeanEx.dtype = "float") ∧
    (∀ e ∈ colMeanEx.data, e ≠ "" → (stodVal e).isSome) ∧
    (colMeanEx.data.filter fun e => e ≠ "").length ≠ 0 ∧
    colMeanEx.mean = some (7 / 4) := by
  refine ⟨Or.inr rfl, by decide, by decide, ?_⟩
  rw [c5_mean_excludes_missing colMeanEx (Or.inr rfl) (by decide) (by decide)]
  with_unfolding_all rfl

/-- Cons decomposition of the missing-index scan. -/
theorem missingIdxs_cons (k : String) (ks : List String) :
    missingIdxs (k :: ks) =
      (if k = "" then [0] else []) ++ (missingIdxs ks).map (· + 1) := by
  unfold missingIdxs
  simp only [List.length_cons, List.range_succ_eq_map, List.filter_cons, List.getD_cons_zero,
    List.getD_cons_succ, List.filter_map, Function.comp]
  by_cases hk : k = "" <;>
    simp [hk, Function.comp_def, Nat.succ_eq_add_one, List.getD, List.getElem?_cons_succ]

/-- The collected missing indices are strictly increasing. -/
theorem missingIdxs_pairwise (ks : List String) : (missingIdxs ks).Pairwise (· < ·) :=
  List.Pairwise.sublist (List.filter_sublist _) (List.pairwise_lt_range _)

/-- Shifting every erase index and the shift counter together changes nothing. -/
theorem eraseRun_map_succ (idxs : List ℕ) : ∀ (xs : List String) (j : ℕ),
    eraseRun xs (idxs.map (· + 1)) (j + 1) = eraseRun xs idxs j := by
  induction idxs with
  | nil => intro xs j; rfl
  | cons i rest ih =>
      intro xs j
      simp only [List.map_cons, eraseRun]
      rw [Nat.succ_sub_succ]
      exact ih _ _

/-- When every index lies beyond the head, the erase sequence keeps the head. -/
theorem eraseRun_cons_head (idxs : List ℕ) (hp : idxs.Pairwise (· < ·)) :
    ∀ (xs : List String) (x : String) (j : ℕ), (∀ i ∈ idxs, j ≤ i) →
      eraseRun (x :: xs) (idxs.map (· + 1)) j = x :: eraseRun xs idxs j := by
  induction idxs with
  | nil => intro xs x j _; rfl
  | cons i rest ih =>
      intro xs x j hj
      have hji : j ≤ i := hj i (by simp)
      rcases List.pairwise_cons.mp hp with ⟨hlt, hp2⟩
      simp only [List.map_cons, eraseRun]
      have h1 : i + 1 - j = i - j + 1 := by omega
      rw [h1]
      rw [show (x :: xs).eraseIdx (i - j + 1) = x :: xs.eraseIdx (i - j) from rfl]
      exact ih hp2 _ x (j + 1) fun i2 hi2 => by
        have := hlt i2 hi2
        omega

/--
The sequential shifted-erase pass of `dropna` removes exactly the rows at
the key column's missing positions.
-/
theorem eraseRun_missing (ks : List String) : ∀ xs : List String, xs.length = ks.length →
    eraseRun xs (missingIdxs ks) 0 = keepByKey xs ks := by
  induction ks with
  | nil =>
      intro xs hlen
      rw [List.length_nil, List.length_eq_zero] at hlen
      subst hlen
      rfl
  | cons k ks ih =>
      intro xs hlen
      rcases xs with _ | ⟨x, xs⟩
      · simp at hlen
      · have hlen2 : xs.length = ks.length := by simpa using hlen
        rw [missingIdxs_cons]
        by_cases hk : k = ""
        · rw [if_pos hk]
          simp only [List.singleton_append]
          rw [show eraseRun (x :: xs) (0 :: (missingIdxs ks).map (· + 1)) 0 =
                eraseRun xs ((missingIdxs ks).map (· + 1)) 1 from rfl]
          rw [show (1 : ℕ) = 0 + 1 from rfl, eraseRun_map_succ, ih xs hlen2]
          simp [keepByKey, hk]
        · rw [if_neg hk]
          simp only [List.nil_append]
          rw [eraseRun_cons_head (missingIdxs ks) (missingIdxs_pairwise ks) xs x 0
            fun i _ => Nat.zero_le i]
          rw [ih xs hlen2]
          simp [keepByKey, hk]

/-- The outer loop over indices commutes into a per-column erase sequence. -/
theorem eraseLoop_interchange (idxs : List ℕ) : ∀ (cd : List (String × Column)) (j : ℕ),
    eraseLoop cd idxs j =
      cd.map fun p => (p.1, { p.2 with data := eraseRun p.2.data idxs j }) := by
  induction idxs with
  | nil =>
      intro cd j
      simp only [eraseLoop, eraseRun]
      exact (List.map_id _).symm
  | cons i rest ih =>
      intro cd j
      simp only [eraseLoop]
      rw [ih]
      unfold eraseStep
      rw [List.map_map]
      rfl

/-- Lookup commutes with the per-column filtering map of `dropna`. -/
theorem alookup_map_keep (cd : List (String × Column)) (k : String) (kd : List String) :
    alookup (cd.map fun p => (p.1, { p.2 with data := keepByKey p.2.data kd })) k =
      (alookup cd k).map fun c0 => { c0 with data := keepByKey c0.data kd } := by
  induction cd with
  | nil => rfl
  | cons p rest ih =>
      simp only [List.map_cons, alookup]
      by_cases h : p.1 = k <;> simp [h, ih]

/-- Filtering a list against itself keeps exactly its non-missing entries. -/
theorem keepByKey_self (xs : List String) : keepByKey xs xs = xs.filter fun e => e ≠ "" := by
  induction xs with
  | nil => rfl
  | cons x xs ih =>
      unfold keepByKey at ih ⊢
      rw [List.zip_cons_cons, List.filter_cons]
      by_cases hx : x = "" <;> simp [hx, List.filter_cons] <;> simpa using ih

/-- The kept-row count depends only on the key column. -/
theorem keepByKey_length (xs ks : List String) (h : xs.length = ks.length) :
    (keepByKey xs ks).length = (ks.filter fun e => e ≠ "").length := by
  induction ks generalizing xs with
  | nil =>
      rw [List.length_nil, List.length_eq_zero] at h
      subst h
      rfl
  | cons k ks ih =>
      rcases xs with _ | ⟨x, xs⟩
      · simp at h
      · have h2 : xs.length = ks.length := by simpa using h
        unfold keepByKey at ih ⊢
        rw [List.zip_cons_cons, List.filter_cons, List.filter_cons]
        by_cases hk : k = "" <;> simp [hk] <;> simpa using ih xs h2

/--
C6: for a DataFrame and a column name present in it, under the equal-row-count
invariant, `dropna` removes from every column exactly the rows at the indices
where the named column's value is missing; afterwards the named column
contains no missing values and all columns share the new (filtered) row
count.
-/
theorem c6_dropna_spec (df : DataFrame) (key : String) (c : Column)
    (hc : alookup df.col_data key = some c)
    (hlen : ∀ p ∈ df.col_data, p.2.data.length = c.data.length) :
    (DataFrame.dropna df key).col_data =
      (df.col_data.map fun p => (p.1, { p.2 with data := keepByKey p.2.data c.data })) ∧
    alookup (DataFrame.dropna df key).col_data key =
      some { c with data := c.data.filter fun e => e ≠ "" } ∧
    ∀ p ∈ (DataFrame.dropna df key).col_data,
      p.2.data.length = (c.data.filter fun e => e ≠ "").length := by
  have hmain : (DataFrame.dropna df key).col_data =
      df.col_data.map fun p => (p.1, { p.2 with data := keepByKey p.2.data c.data }) := by
    unfold DataFrame.dropna
    simp only [hc, Option.getD_some]
    rw [eraseLoop_interchange]
    exact List.map_congr_left fun p hp => by
      rw [eraseRun_missing c.data p.2.data (hlen p hp)]
  refine ⟨hmain, ?_, ?_⟩
  · rw [hmain, alookup_map_keep, hc, Option.map_some']
    rw [keepByKey_self]
  · intro p hp
    rw [hmain] at hp
    obtain ⟨q, hq, rfl⟩ := List.mem_map.mp hp
    exact keepByKey_length q.2.data c.data (hlen q hq)

/-- C6 witness: `dropna` on the example table removes rows 1 and 3 everywhere. -/
theorem c6_dropna_spec_witness :
    alookup exDFdrop.col_data "a" = some { name := "a", data := ["1", "", "3", ""], dtype := "int" } ∧
    (∀ p ∈ exDFdrop.col_data,
      p.2.data.length = (["1", "", "3", ""] : List String).length) ∧
    alookup (DataFrame.dropna exDFdrop "a").col_data "a" =
      some { name := "a", data := ["1", "3"], dtype := "int" } := by
  refine ⟨rfl, by decide, ?_⟩
  rw [(c6_dropna_spec exDFdrop "a" { name := "a", data := ["1", "", "3", ""], dtype := "int" }
    rfl (by decide)).2.1]
  rfl

/-- Each rendered digit character is a decimal digit. -/
theorem digitChar10_digit (n : ℕ) : isDigitChar (digitChar10 n) = true := by
  unfold digitChar10
  split <;> rfl

/-- Every character of the decimal rendering is a digit. -/
theorem natDigitsAux_digits : ∀ fuel n : ℕ, ∀ c ∈ natDigitsAux fuel n, isDigitChar c = true := by
  intro fuel
  induction fuel with
  | zero =>
      intro n c hc
      simp [natDigitsAux] at hc
  | succ f ih =>
      intro n c hc
      unfold natDigitsAux at hc
      by_cases h : n < 10
      · rw [if_pos h] at hc
        rw [List.mem_singleton.mp hc]
        exact digitChar10_digit n
      · rw [if_neg h] at hc
        rcases List.mem_append.mp hc with h1 | h1
        · exact ih _ c h1
        · rw [List.mem_singleton.mp h1]
          exact digitChar10_digit _

/-- The decimal rendering is never empty. -/
theorem natDigitsAux_ne_nil (f n : ℕ) : natDigitsAux (f + 1) n ≠ [] := by
  unfold natDigitsAux
  by_cases h : n < 10
  · rw [if_pos h]
    simp
  · rw [if_neg h]
    simp

/-- Every character of `natToDecimal` is a digit. -/
theorem natToDecimal_digits (n : ℕ) : ∀ c ∈ natToDecimal n, isDigitChar c = true :=
  natDigitsAux_digits (n + 1) n

/-- `natToDecimal` is never empty. -/
theorem natToDecimal_ne_nil (n : ℕ) : natToDecimal n ≠ [] :=
  natDigitsAux_ne_nil n n

/-- A digit character is not whitespace. -/
theorem digit_not_space (c : Char) (h : isDigitChar c = true) : isSpaceChar c = false := by
  cases hs : isSpaceChar c
  · rfl
  · exfalso
    have h6 : c = ' ' ∨ c = '\t' ∨ c = '\n' ∨ c = '\x0b' ∨ c = '\x0c' ∨ c = '\r' := by
      unfold isSpaceChar at hs
      simp only [Bool.or_eq_true, decide_eq_true_eq] at hs
      tauto
    rcases h6 with rfl | rfl | rfl | rfl | rfl | rfl <;> exact Bool.noConfusion h

/-- A run of satisfying characters followed by a failing one splits take/drop. -/
theorem takeWhile_all_append (p : Char → Bool) (ds : List Char) (y : Char) (t : List Char)
    (h : ∀ c ∈ ds, p c = true) (hy : p y = false) :
    (ds ++ y :: t).takeWhile p = ds ∧ (ds ++ y :: t).dropWhile p = y :: t := by
  induction ds with
  | nil => simp [List.takeWhile_cons, List.dropWhile_cons, hy]
  | cons d ds ih =>
      have hd : p d = true := h d (by simp)
      have ih2 := ih fun c hc => h c (by simp [hc])
      simp [List.takeWhile_cons, List.dropWhile_cons, hd, ih2.1, ih2.2]

/-- The sign splitter is inert on a string starting with a digit. -/
theorem signSplit_digit (d : Char) (l : List Char) (hd : isDigitChar d = true) :
    signSplit (d :: l) = (false, d :: l) := by
  unfold signSplit
  split
  · next heq =>
      rw [List.cons.injEq] at heq
      rw [heq.1] at hd
      exact Bool.noConfusion hd
  · next heq =>
      rw [List.cons.injEq] at heq
      rw [heq.1] at hd
      exact Bool.noConfusion hd
  · rfl

/--
A sign, a nonempty digit run, then a decimal point and anything: `stoi` stops
at the point, so `is_integer` rejects.
-/
theorem is_integer_digits_dot (neg : Bool) (ds t : List Char)
    (hds : ds ≠ []) (hdig : ∀ c ∈ ds, isDigitChar c = true) :
    is_integer ⟨(if neg then ['-'] else []) ++ ds ++ '.' :: t⟩ = false := by
  obtain ⟨d, ds2, rfl⟩ := List.exists_cons_of_ne_nil hds
  have hd : isDigitChar d = true := hdig d (by simp)
  have htd := takeWhile_all_append isDigitChar (d :: ds2) '.' t hdig rfl
  unfold is_integer
  have hdata : (⟨(if neg then ['-'] else []) ++ (d :: ds2) ++ '.' :: t⟩ : String).data =
      (if neg then ['-'] else []) ++ (d :: ds2) ++ '.' :: t := rfl
  rw [hdata]
  cases neg with
  | true =>
      rw [if_pos rfl]
      have hdw : (['-'] ++ (d :: ds2) ++ '.' :: t).dropWhile isSpaceChar =
          '-' :: ((d :: ds2) ++ '.' :: t) := by
        simp [List.dropWhile_cons, show isSpaceChar '-' = false from rfl]
      rw [hdw]
      rw [show signSplit ('-' :: ((d :: ds2) ++ '.' :: t)) =
            (true, (d :: ds2) ++ '.' :: t) from rfl]
      simp only [List.cons_append] at htd
      simp [htd.1, htd.2]
  | false =>
      rw [if_neg Bool.false_ne_true]
      have hdw : (([] : List Char) ++ (d :: ds2) ++ '.' :: t).dropWhile isSpaceChar =
          d :: (ds2 ++ '.' :: t) := by
        simp [List.dropWhile_cons, digit_not_space d hd]
      rw [hdw, signSplit_digit d (ds2 ++ '.' :: t) hd]
      simp only [List.cons_append] at htd
      simp [htd.1, htd.2]

/--
`to_string(double)` always carries six decimal digits after a point, so its
result never parses as an integer.
-/
theorem is_integer_doubleToString (q : ℚ) : is_integer (doubleToString q) = false := by
  simp only [doubleToString]
  by_cases hq : q < 0
  · rw [if_pos hq]
    exact is_integer_digits_dot true _ _ (natToDecimal_ne_nil _) (natToDecimal_digits _)
  · rw [if_neg hq]
    exact is_integer_digits_dot false _ _ (natToDecimal_ne_nil _) (natToDecimal_digits _)

/-- Lookup commutes with the per-column missing-replacement map of `DataFrame::fillna`. -/
theorem alookup_map_fill (cd : List (String × Column)) (k : String) (x : FillValue) :
    alookup (cd.map fun p =>
        (p.1, { p.2 with data := p.2.data.map fun e => if e = "" then fillValueString x else e })) k =
      (alookup cd k).map fun c0 =>
        { c0 with data := c0.data.map fun e => if e = "" then fillValueString x else e } := by
  induction cd with
  | nil => rfl
  | cons p rest ih =>
      simp only [List.map_cons, alookup]
      by_cases h : p.1 = k <;> simp [h, ih]

/--
C9 counterexample: table-level `fillna` with the double `3.7` on an Integer
column stores `"3.700000"`, which `is_integer` rejects — the fill value is
NOT coerced to the column's numeric kind, and the stored value is not
parseable as the declared dtype.
-/
theorem c9_counterexample :
    alookup (DataFrame.fillna exDFfill (.fdouble (37 / 10))).col_data "n" =
      some { name := "n", data := ["3.700000", "1"], dtype := "int" } ∧
    is_integer "3.700000" = false := by
  constructor
  · with_unfolding_all rfl
  · rfl

/--
C9 (amended): table-level `fillna` performs NO dtype coercion: every missing
value of every column is replaced by the stringification of the fill value
as given (`to_string` of the `int` or `double`, the string itself
otherwise), regardless of the column's dtype; and a `double` fill value is
rendered with six decimals, which is never parseable as Integer, so filling
an Integer column with a double breaks the dtype-parseability invariant.
-/
theorem c9_fillna_no_coercion (df : DataFrame) (x : FillValue) (n : String) (c : Column)
    (hc : alookup df.col_data n = some c) :
    alookup (DataFrame.fillna df x).col_data n =
      some { c with data := c.data.map fun e => if e = "" then fillValueString x else e } ∧
    ∀ q : ℚ, is_integer (fillValueString (.fdouble q)) = false := by
  constructor
  · simp only [DataFrame.fillna]
    rw [alookup_map_fill, hc, Option.map_some']
  · intro q
    exact is_integer_doubleToString q

/-- C9 witness: the amended claim applied at the Integer column `["", "1"]`. -/
theorem c9_fillna_no_coercion_witness :
    alookup exDFfill.col_data "n" = some { name := "n", data := ["", "1"], dtype := "int" } ∧
    alookup (DataFrame.fillna exDFfill (.fdouble (37 / 10))).col_data "n" =
      some { name := "n",
             data := (["", "1"] : List String).map fun e =>
               if e = "" then fillValueString (.fdouble (37 / 10)) else e,
             dtype := "int" } :=
  ⟨rfl, (c9_fillna_no_coercion exDFfill (.fdouble (37 / 10)) "n" _ rfl).1⟩

/-- Insert-or-replace then lookup of the same key yields the inserted column. -/
theorem alookup_ainsert_self (cd : List (String × Column)) (k : String) (v : Column) :
    alookup (ainsert cd k v) k = some v := by
  induction cd with
  | nil => simp [ainsert, alookup]
  | cons p rest ih =>
      by_cases h : p.1 = k <;> simp [ainsert, alookup, h, ih]

/-- Insert-or-replace leaves lookups of other keys unchanged. -/
theorem alookup_ainsert_ne (cd : List (String × Column)) (k k2 : String) (v : Column)
    (h : k2 ≠ k) : alookup (ainsert cd k v) k2 = alookup cd k2 := by
  induction cd with
  | nil => simp [ainsert, alookup, Ne.symm h]
  | cons p rest ih =>
      by_cases hp : p.1 = k
      · simp [ainsert, alookup, hp, Ne.symm h]
      · by_cases hq : p.1 = k2 <;> simp [ainsert, alookup, hp, hq, ih, h]

/-- A masked column keeps exactly as many rows as the mask has true entries. -/
theorem keepMask_length {α : Type} (m : List Bool) : ∀ d : List α, d.length = m.length →
    (keepMask d m).length = (m.filter id).length := by
  induction m with
  | nil => intro d _; simp [keepMask]
  | cons b bs ih =>
      intro d h
      rcases d with _ | ⟨x, d⟩
      · simp at h
      · have h2 : d.length = bs.length := by simpa using h
        cases b <;> simp [keepMask, List.filter_cons, ih d h2]

/-- The masked column lists the original values at the mask's true indices, in order. -/
theorem keepMask_trueIdxs {α : Type} (dflt : α) (m : List Bool) :
    ∀ d : List α, d.length = m.length →
      keepMask d m = (trueIdxs m).map fun i => d.getD i dflt := by
  induction m with
  | nil =>
      intro d h
      rw [List.length_nil, List.length_eq_zero] at h
      subst h
      rfl
  | cons b bs ih =>
      intro d h
      rcases d with _ | ⟨x, d⟩
      · simp at h
      · have h2 : d.length = bs.length := by simpa using h
        unfold trueIdxs
        cases b
        · simp only [keepMask]
          rw [ih d h2]
          simp [List.map_map, Function.comp_def]
        · simp only [keepMask]
          rw [ih d h2]
          simp [List.map_map, Function.comp_def]

/-- The rebuild loop does not touch keys outside its name list. -/
theorem buildCols_notmem (orig : List (String × Column)) (mask : List Bool) :
    ∀ (ns : List String) (cd cd2 : List (String × Column)) (m : String),
      buildCols orig ns cd mask = some cd2 → m ∉ ns → alookup cd2 m = alookup cd m := by
  intro ns
  induction ns with
  | nil =>
      intro cd cd2 m h _
      simp only [buildCols, Option.some.injEq] at h
      rw [h]
  | cons n ns ih =>
      intro cd cd2 m h hm
      simp only [buildCols] at h
      cases halo : alookup orig n with
      | none => simp [halo] at h
      | some c =>
          rw [halo] at h
          have hm1 : m ≠ n := fun he => hm (he ▸ List.mem_cons_self n ns)
          have hm2 : m ∉ ns := fun he => hm (List.mem_cons_of_mem _ he)
          rw [ih _ _ m h hm2, alookup_ainsert_ne _ _ _ _ hm1]

/--
The rebuild loop succeeds when every listed name is present in the source
map, and afterwards each listed name maps to the filtered copy of its source
column.
-/
theorem buildCols_spec (orig : List (String × Column)) (mask : List Bool) :
    ∀ ns : List String, ns.Nodup → (∀ n ∈ ns, (alookup orig n).isSome) →
      ∀ cd : List (String × Column),
        ∃ cd2, buildCols orig ns cd mask = some cd2 ∧
          ∀ n ∈ ns, ∀ c, alookup orig n = some c →
            alookup cd2 n =
              some { name := n, data := keepMask c.data mask, dtype := c.dtype } := by
  intro ns
  induction ns with
  | nil =>
      intro _ _ cd
      exact ⟨cd, rfl, by simp⟩
  | cons n ns ih =>
      intro hnd hall cd
      obtain ⟨c0, hc0⟩ := Option.isSome_iff_exists.mp (hall n (by simp))
      rcases List.nodup_cons.mp hnd with ⟨hn_nin, hnd2⟩
      obtain ⟨cd2, hbc, hchar⟩ := ih hnd2 (fun x hx => hall x (by simp [hx]))
        (ainsert cd n { name := n, data := keepMask c0.data mask, dtype := c0.dtype })
      refine ⟨cd2, ?_, ?_⟩
      · simp only [buildCols, hc0]
        exact hbc
      · intro m hm c hc
        rcases List.mem_cons.mp hm with rfl | hm2
        · rw [hc0] at hc
          injection hc with hc
          subst hc
          rw [buildCols_notmem orig mask ns _ cd2 m hbc hn_nin, alookup_ainsert_self]
        · exact hchar m hm2 c hc

/--
C1: for a well-formed DataFrame (consistent display buffer, unique column
names all present in the map), the mask filter fails with a range error iff
the mask length differs from the data-row count; otherwise it returns a new
DataFrame preserving column order and names in which every listed column is
replaced by a copy with the same name and dtype whose data keeps exactly the
rows at the mask's true positions — the new row count is the number of true
entries, and the value at each new position equals the original value at the
corresponding old index.  (The source DataFrame is not modified: the model
is pure and the source's columns are read through `col_data.at` only.)
-/
theorem c1_mask_filter (df : DataFrame) (hdr : List String) (rows : List (List String))
    (mask : List Bool)
    (hrow : df.row_data = hdr :: rows)
    (hnd : df.columns.Nodup)
    (hcols : ∀ n ∈ df.columns, (alookup df.col_data n).isSome) :
    (mask.length ≠ rows.length → maskFilter df mask = .error ()) ∧
    (mask.length = rows.length →
      ∃ df2, maskFilter df mask = .ok df2 ∧
        df2.columns = df.columns ∧
        ∀ n ∈ df.columns, ∀ c, alookup df.col_data n = some c →
          alookup df2.col_data n =
            some { name := n, data := keepMask c.data mask, dtype := c.dtype } ∧
          (c.data.length = mask.length →
            (keepMask c.data mask).length = (mask.filter id).length ∧
            keepMask c.data mask = (trueIdxs mask).map fun i => c.data.getD i "")) := by
  constructor
  · intro hne
    unfold maskFilter
    simp only [hrow]
    rw [if_neg hne]
  · intro heq
    obtain ⟨cd2, hbc, hchar⟩ := buildCols_spec df.col_data mask df.columns hnd hcols df.col_data
    refine ⟨{ col_data := cd2,
              row_data := (hdr :: rows) ++ hdr :: keepMask rows mask,
              file_dir := df.file_dir,
              columns := df.columns }, ?_, rfl, ?_⟩
    · unfold maskFilter
      simp only [hrow]
      rw [if_pos heq, hbc]
    · intro n hn c hc
      refine ⟨hchar n hn c hc, fun hlen => ?_⟩
      exact ⟨keepMask_length mask c.data hlen, keepMask_trueIdxs "" mask c.data hlen⟩

/--
C1 witness: the characterization applied at the example table — a
wrong-length mask errors, a correct-length mask succeeds.
-/
theorem c1_mask_filter_witness :
    exDF.columns.Nodup ∧ (∀ n ∈ exDF.columns, (alookup exDF.col_data n).isSome) ∧
    maskFilter exDF [true] = .error () ∧
    (∃ df2, maskFilter exDF [true, false] = .ok df2 ∧ df2.columns = exDF.columns) := by
  refine ⟨by decide, by decide, ?_, ?_⟩
  · exact (c1_mask_filter exDF ["x"] [["1"], ["2"]] [true] rfl (by decide) (by decide)).1
      (by decide)
  · obtain ⟨df2, h1, h2, _⟩ :=
      (c1_mask_filter exDF ["x"] [["1"], ["2"]] [true, false] rfl (by decide) (by decide)).2 rfl
    exact ⟨df2, h1, h2⟩
